import Mathlib

/-!
Verification development for the go-gateway payment backend
(joaodematejr/go-gateway-api).

The embedding below translates the repository sources:
  * `internal/domain` error variables (the `Err*` list) into `DomainErr`;
  * `AccountService` (`CreateAccount`, `UpdateBalance`, `FindByID`,
    `FindByAPIKey`) into state-passing functions over `GatewayState`;
  * `InvoiceService.ProcessTransactionResult`, `TransactionResult.ToDomainStatus`
    and the Kafka consumer loop from
    `backend/task-master-ia/scripts/prd.txt` into `processTransactionResult`,
    `toDomainStatus`, `consume` and `consumeBody`;
  * parts of the system whose source is not in the repository snapshot
    (the invoice state machine `UpdateStatus`, the settlement orchestrator
    `Submit`, `Account.AddBalance`) are modelled from the specification and
    are marked as such in their doc comments.

Go `domain.Status` is a string type (`type Status string`), so statuses are
embedded as `String`, which is what makes the unchecked cast in
`ToDomainStatus` expressible. Monetary amounts (Go `float64`) are embedded
as `ℚ`; every amount manipulated in these claims is exact in that range.
-/

namespace GoGateway

/-- Go `domain.Status` is a string type; the closed enumeration is the set
of recognised literals below. -/
abbrev Status := String

def StatusPending : Status := "pending"

def StatusApproved : Status := "approved"

def StatusRejected : Status := "rejected"

def StatusCancelled : Status := "cancelled"

def StatusRefunded : Status := "refunded"

def StatusReversed : Status := "reversed"

def StatusChargedBack : Status := "charged_back"

def StatusSettled : Status := "settled"

def StatusDisputed : Status := "disputed"

/-- The closed Invoice-status enumeration (spec section 3). -/
def statusValues : List Status :=
  [StatusPending, StatusApproved, StatusRejected, StatusCancelled,
   StatusRefunded, StatusReversed, StatusChargedBack, StatusSettled,
   StatusDisputed]

/-- The terminal refinements reachable only from approved/settled
(spec section 4.2). -/
def refinementStatuses : List Status :=
  [StatusSettled, StatusCancelled, StatusRefunded, StatusReversed,
   StatusChargedBack, StatusDisputed]

/-- Domain error values from `internal/domain` (the `errors.New` variables). -/
inductive DomainErr where
  | accountNotFound
  | accountDuplicateKey
  | accountAlreadyExists
  | invalidAPIKey
  | insufficientFunds
  | invalidAmount
  | transactionNotFound
  | transactionAlreadyExists
  | transactionFailed
  | transactionLimitExceeded
  | transactionNotAllowed
  | transactionAlreadyProcessed
  | transactionAlreadyCancelled
  | transactionAlreadyRefunded
  | transactionAlreadyReversed
  | transactionAlreadyChargedBack
  | transactionAlreadySettled
  | transactionAlreadyDisputed
deriving DecidableEq, Repr

/-- The `TransactionAlready*`-class errors (`ErrTransactionAlreadyProcessed`,
`ErrTransactionAlreadyCancelled`, ... in `internal/domain`): the errors that
signal an idempotent replay / duplicate processing attempt. -/
def isAlreadyClass : DomainErr → Bool
  | .transactionAlreadyProcessed => true
  | .transactionAlreadyCancelled => true
  | .transactionAlreadyRefunded => true
  | .transactionAlreadyReversed => true
  | .transactionAlreadyChargedBack => true
  | .transactionAlreadySettled => true
  | .transactionAlreadyDisputed => true
  | .transactionAlreadyExists => true
  | _ => false

/-- Modelled from the spec: the legal transitions of the Invoice state
machine (spec section 4.2) - the Go `Invoice.UpdateStatus` source is not in
the repository snapshot. `pending` may move to `approved` or `rejected`;
the terminal refinements are reachable only from `approved` or `settled`
(with `settled` to `settled` excluded as a terminal-to-terminal repeat);
nothing else is legal, so no transition targets `pending`. -/
def legalTransition (cur new : Status) : Bool :=
  decide ((cur = StatusPending ∧ (new = StatusApproved ∨ new = StatusRejected)) ∨
          (cur = StatusApproved ∧ new ∈ refinementStatuses) ∨
          (cur = StatusSettled ∧ new ∈ refinementStatuses ∧ new ≠ StatusSettled))

/-- Modelled from the spec: the `TransactionAlready*`-class error reported
when an illegal transition is attempted from `cur` (spec section 4.2
together with the error list of `internal/domain`). Illegal moves out of
`pending` are not a replay, so they report `transactionNotAllowed`. -/
def alreadyError (cur : Status) : DomainErr :=
  if cur = StatusApproved ∨ cur = StatusRejected then .transactionAlreadyProcessed
  else if cur = StatusCancelled then .transactionAlreadyCancelled
  else if cur = StatusRefunded then .transactionAlreadyRefunded
  else if cur = StatusReversed then .transactionAlreadyReversed
  else if cur = StatusChargedBack then .transactionAlreadyChargedBack
  else if cur = StatusSettled then .transactionAlreadySettled
  else if cur = StatusDisputed then .transactionAlreadyDisputed
  else .transactionNotAllowed

/-- Modelled from the spec: `Invoice.UpdateStatus(newStatus) -> error`
(spec section 4.2) - the Go source of this method is not in the repository
snapshot. A legal transition yields the new status; an illegal one is
rejected with the replay-class error of the current status and yields
nothing, so the stored status is left unchanged. -/
def updateStatus (cur new : Status) : Except DomainErr Status :=
  if legalTransition cur new then .ok new else .error (alreadyError cur)

/-- `domain.Account`: identity, unique API key, balance. -/
structure Account where
  id : String
  apiKey : String
  balance : ℚ
deriving DecidableEq, Repr

/-- Modelled from the spec: `Account.AddBalance(amount)` (spec sections 3
and 4.5) - the Go source of this method is not in the repository snapshot;
`AccountService.UpdateBalance` calls it to add `amount` to the balance. -/
def Account.addBalance (a : Account) (amount : ℚ) : Account :=
  { a with balance := a.balance + amount }

/-- `domain.Invoice`: id, owning account id, amount, status. -/
structure Invoice where
  id : String
  accountId : String
  amount : ℚ
  status : Status
deriving DecidableEq, Repr

/-- `events.PendingTransaction` {account_id, invoice_id, amount}. -/
structure PendingTransaction where
  accountId : String
  invoiceId : String
  amount : ℚ
deriving DecidableEq, Repr

/-- `events.TransactionResult` {invoice_id, status}: the status arrives as a
raw wire string. -/
structure TransactionResult where
  invoiceId : String
  status : String
deriving DecidableEq, Repr

/-- `TransactionResult.ToDomainStatus` from
`backend/task-master-ia/scripts/prd.txt`: `return domain.Status(t.Status)`,
an unchecked string cast with no validation. -/
def toDomainStatus (t : TransactionResult) : Status := t.status

/-- The validated conversion the spec recommends (spec section 4.4): check
the wire string against the closed enumeration and fail on unknown values.
This definition follows the words of the spec, for comparison with the
source cast `toDomainStatus`; it is not in the source. -/
def validatedToDomainStatus (t : TransactionResult) : Option Status :=
  if t.status ∈ statusValues then some t.status else none

/-- The persistent state visible to the services: the account store and the
invoice store (the in-memory embedding of the SQL repositories). -/
structure GatewayState where
  accounts : List Account
  invoices : List Invoice
deriving DecidableEq, Repr

/-- Repository lookup of an account by API key (first match). -/
def findAccountByAPIKey (st : GatewayState) (key : String) : Option Account :=
  st.accounts.find? (fun a => a.apiKey == key)

/-- Repository lookup of an account by id (first match). -/
def findAccountById (st : GatewayState) (id : String) : Option Account :=
  st.accounts.find? (fun a => a.id == id)

/-- Repository lookup of an invoice by id (first match). -/
def findInvoiceById (st : GatewayState) (id : String) : Option Invoice :=
  st.invoices.find? (fun j => j.id == id)

/-- `AccountRepository.Save`: persist a new account row. -/
def saveAccount (st : GatewayState) (a : Account) : GatewayState :=
  { st with accounts := st.accounts ++ [a] }

/-- `AccountRepository.UpdateBalance`: overwrite the stored row with the
mutated account (rows are keyed by account id). -/
def storeAccount (st : GatewayState) (a : Account) : GatewayState :=
  { st with accounts := st.accounts.map (fun b => if b.id == a.id then a else b) }

/-- `InvoiceRepository.Save`: persist a new invoice row. -/
def saveInvoice (st : GatewayState) (inv : Invoice) : GatewayState :=
  { st with invoices := st.invoices ++ [inv] }

/-- `InvoiceRepository.UpdateStatus`: overwrite the stored invoice row
(rows are keyed by invoice id). -/
def setInvoice (st : GatewayState) (inv : Invoice) : GatewayState :=
  { st with invoices := st.invoices.map (fun j => if j.id == inv.id then inv else j) }

/-- `AccountService.CreateAccount` (source: the service code bundled after
the auth middleware): look up the API key; any error other than
`ErrAccountNotFound` propagates; an existing account yields
`ErrAccountDuplicateKey` without calling `Save`; otherwise `Save` the new
account. The pair returns the (possibly unchanged) state and the error. -/
def createAccount (st : GatewayState) (acc : Account) : GatewayState × Option DomainErr :=
  match findAccountByAPIKey st acc.apiKey with
  | some _ => (st, some .accountDuplicateKey)
  | none => (saveAccount st acc, none)

/-- `AccountService.UpdateBalance(apiKey, amount)` (source: the service code
bundled after the auth middleware): find the account by API key
(`ErrAccountNotFound` when absent), call `Account.AddBalance(amount)`, and
persist through `AccountRepository.UpdateBalance`. -/
def updateBalance (st : GatewayState) (apiKey : String) (amount : ℚ) :
    Except DomainErr GatewayState :=
  match findAccountByAPIKey st apiKey with
  | none => .error .accountNotFound
  | some account => .ok (storeAccount st (account.addBalance amount))

/-- `AccountService.FindByID` (source: the service code bundled after the
auth middleware): `ErrAccountNotFound` when the id is absent. -/
def accountFindById (st : GatewayState) (id : String) : Except DomainErr Account :=
  match findAccountById st id with
  | some a => .ok a
  | none => .error .accountNotFound

/-- `InvoiceService.ProcessTransactionResult(invoiceID, status)` from
`backend/task-master-ia/scripts/prd.txt`: find the invoice
(`ErrTransactionNotFound` when absent), run the state-machine transition
`UpdateStatus`, persist the new status, and - when the incoming status is
`approved` - look up the owning account by the invoice account id and add
the invoice amount to its balance via `AccountService.UpdateBalance` keyed
by the account API key. The returned state reflects exactly the writes
performed before any failure (there is no compensating rollback). -/
def processTransactionResult (st : GatewayState) (invoiceID : String) (status : Status) :
    GatewayState × Option DomainErr :=
  match findInvoiceById st invoiceID with
  | none => (st, some .transactionNotFound)
  | some invoice =>
    match updateStatus invoice.status status with
    | .error e => (st, some e)
    | .ok newStatus =>
      let invoice' := { invoice with status := newStatus }
      let st1 := setInvoice st invoice'
      if status = StatusApproved then
        match accountFindById st1 invoice'.accountId with
        | .error e => (st1, some e)
        | .ok account =>
          match updateBalance st1 account.apiKey invoice'.amount with
          | .error e => (st1, some e)
          | .ok st2 => (st2, none)
      else (st1, none)

/-- The high-value cutoff: 10,000 currency units (spec section 6). -/
def threshold : ℚ := 10000

/-- The outcome of `Submit`: the resulting store state, the
PendingTransaction events published to the fraud-review channel, and the
returned invoice or error. -/
structure SubmitResult where
  state : GatewayState
  published : List PendingTransaction
  result : Except DomainErr Invoice
deriving Repr

/-- Modelled from the spec: the settlement orchestrator
`Submit(accountId, amount) -> Invoice` (spec section 4.1) - the Go invoice
service creation path is not in the repository snapshot. The account must
exist (`AccountNotFound`), the amount must be positive (`InvalidAmount`);
at or below the threshold the invoice is created `approved` and
`Ledger.AddBalance` is applied in the same logical operation (one failure
domain); above the threshold the invoice is created `pending` and a
`PendingTransaction` event is published, with no balance mutation. -/
def submit (st : GatewayState) (accountId invoiceId : String) (amount : ℚ) : SubmitResult :=
  match findAccountById st accountId with
  | none => ⟨st, [], .error .accountNotFound⟩
  | some acc =>
    if amount ≤ 0 then ⟨st, [], .error .invalidAmount⟩
    else if amount ≤ threshold then
      let inv : Invoice := ⟨invoiceId, accountId, amount, StatusApproved⟩
      ⟨storeAccount (saveInvoice st inv) (acc.addBalance amount), [], .ok inv⟩
    else
      let inv : Invoice := ⟨invoiceId, accountId, amount, StatusPending⟩
      ⟨saveInvoice st inv, [PendingTransaction.mk accountId invoiceId amount], .ok inv⟩

/-- One raw Kafka message as the consumer sees it after a successful read:
either the payload fails `json.Unmarshal` or it deserializes into a
`TransactionResult`. -/
inductive RawMessage where
  | malformed
  | event (t : TransactionResult)
deriving DecidableEq, Repr

/-- The outcome of one `reader.ReadMessage(ctx)` call: a transport or
context error (this is also what a cancelled context produces), or a
message. -/
inductive ReadResult where
  | failure
  | message (m : RawMessage)
deriving DecidableEq, Repr

/-- The control-flow outcome of one iteration of the `Consume` loop body:
either the loop continues to the next iteration, or it exits (returning the
given error from `Consume`). -/
inductive LoopControl where
  | continueLoop
  | exitLoop (e : Option DomainErr)
deriving DecidableEq, Repr

/-- The state effect of handling one successfully-read message
(`KafkaConsumer.Consume` body from `backend/task-master-ia/scripts/prd.txt`):
a deserialization failure is logged and the message dropped, leaving the
state untouched; otherwise the status string is cast by `ToDomainStatus`
and handed to `ProcessTransactionResult`, keeping whatever writes it
performed even when it reports an error. -/
def handleMessage (st : GatewayState) (m : RawMessage) : GatewayState :=
  match m with
  | .malformed => st
  | .event t => (processTransactionResult st t.invoiceId (toDomainStatus t)).1

/-- One full iteration of the `Consume` loop body of
`backend/task-master-ia/scripts/prd.txt` lines 187-224, including its
control flow: a `ReadMessage` error is logged and the body ends in
`continue`; an unmarshal error is logged and the body ends in `continue`;
a processing error is logged and the body ends in `continue`; a processed
message falls through to the next iteration. No branch of the Go body
contains a `return` or `break`, so no input yields `exitLoop`. -/
def consumeBody (st : GatewayState) (r : ReadResult) : GatewayState × LoopControl :=
  match r with
  | .failure => (st, .continueLoop)
  | .message .malformed => (st, .continueLoop)
  | .message (.event t) =>
      ((processTransactionResult st t.invoiceId (toDomainStatus t)).1, .continueLoop)

/-- The state effect of one loop iteration on one read result. -/
def consumeStep (st : GatewayState) (r : ReadResult) : GatewayState :=
  match r with
  | .failure => st
  | .message m => handleMessage st m

/-- The `Consume` loop run over a finite trace of read results: the direct
recursive rendering of the Go `for` loop, in which every error path ends in
`continue` with the remaining trace still to be consumed. -/
def consume (st : GatewayState) : List ReadResult → GatewayState
  | [] => st
  | .failure :: rs => consume st rs
  | .message m :: rs => consume (handleMessage st m) rs

/-! ### General lemmas about the embedded stores -/

/-- Is an `UpdateStatus` outcome a success? -/
def isOkStatus : Except DomainErr Status → Bool
  | .ok _ => true
  | .error _ => false

theorem setInvoice_accounts (st : GatewayState) (inv : Invoice) :
    (setInvoice st inv).accounts = st.accounts := rfl

theorem storeAccount_invoices (st : GatewayState) (a : Account) :
    (storeAccount st a).invoices = st.invoices := rfl

theorem saveInvoice_accounts (st : GatewayState) (inv : Invoice) :
    (saveInvoice st inv).accounts = st.accounts := rfl

/-- Replacing the row whose key matches the found row makes a later lookup
return the replacement. -/
theorem find_replaceByKey {α : Type} (key : α → String) (l : List α) (X : String) (a b : α)
    (h : l.find? (fun x => key x == X) = some a) (hk : key b = key a) :
    (l.map (fun x => if key x == key b then b else x)).find? (fun x => key x == X) = some b := by
  induction l with
  | nil => simp at h
  | cons c cs ih =>
    by_cases hc : (key c == X) = true
    · rw [List.find?_cons_of_pos (p := fun x => key x == X) _ hc] at h
      have hac : c = a := by simpa using h
      have hcb : (key c == key b) = true := by rw [beq_iff_eq, hk, hac]
      have hbX : (key b == X) = true := by
        rw [beq_iff_eq, hk, ← hac]
        exact beq_iff_eq.mp hc
      simp only [List.map_cons]
      rw [if_pos hcb]
      exact List.find?_cons_of_pos _ hbX
    · rw [List.find?_cons_of_neg (p := fun x => key x == X) _ hc] at h
      have haX : (key a == X) = true := List.find?_some (p := fun x => key x == X) h
      have hcb : (key c == key b) = false := by
        rw [beq_eq_false_iff_ne, hk]
        intro hcontra
        exact hc (hcontra ▸ haX)
      simp only [List.map_cons]
      rw [if_neg (by simp [hcb])]
      exact (List.find?_cons_of_neg (p := fun x => key x == X) _ hc).trans (ih h)

/-- Appending a fresh matching row to a store with no match makes a later
lookup return it. -/
theorem find_append_fresh {α : Type} (p : α → Bool) (l : List α) (a : α)
    (h : l.find? p = none) (ha : p a = true) :
    (l ++ [a]).find? p = some a := by
  rw [List.find?_append, h, Option.none_or, List.find?_cons_of_pos _ ha]

/-- A successful `AccountService.UpdateBalance` only rewrites the account
store; the invoice store is untouched. -/
theorem updateBalance_ok_invoices (st st' : GatewayState) (key : String) (amount : ℚ)
    (h : updateBalance st key amount = .ok st') : st'.invoices = st.invoices := by
  unfold updateBalance at h
  cases hf : findAccountByAPIKey st key with
  | none => rw [hf] at h; simp at h
  | some a =>
    rw [hf] at h
    simp only [Except.ok.injEq] at h
    rw [← h]
    exact storeAccount_invoices st _

/-! ### Lemmas about the state machine -/

/-- No status, recognised or not, may transition to itself: replaying the
very transition that produced the current status is always illegal. -/
theorem legalTransition_self (s : Status) : legalTransition s s = false := by
  simp only [legalTransition, decide_eq_false_iff_not]
  rintro (⟨h1, h2 | h2⟩ | ⟨h1, h2⟩ | ⟨h1, h2, h3⟩)
  · rw [h1] at h2; exact absurd h2 (by decide)
  · rw [h1] at h2; exact absurd h2 (by decide)
  · rw [h1] at h2; exact absurd h2 (by decide)
  · exact h3 h1

/-- Any status reachable by a legal transition reports a
`TransactionAlready*`-class error when a later transition is refused from
it. -/
theorem legal_target_already (cur s : Status) (h : legalTransition cur s = true) :
    isAlreadyClass (alreadyError s) = true := by
  simp only [legalTransition, decide_eq_true_eq] at h
  rcases h with ⟨_, h2 | h2⟩ | ⟨_, h2⟩ | ⟨_, h2, _⟩
  · subst h2; decide
  · subst h2; decide
  · simp only [refinementStatuses, List.mem_cons, List.not_mem_nil, or_false] at h2
    rcases h2 with h2 | h2 | h2 | h2 | h2 | h2 <;> (subst h2; decide)
  · simp only [refinementStatuses, List.mem_cons, List.not_mem_nil, or_false] at h2
    rcases h2 with h2 | h2 | h2 | h2 | h2 | h2 <;> (subst h2; decide)

instance : DecidableEq (Except DomainErr Status) := fun a b =>
  match a, b with
  | .ok x, .ok y =>
    if h : x = y then .isTrue (by rw [h])
    else .isFalse (by intro hc; injection hc with h2; exact h h2)
  | .error x, .error y =>
    if h : x = y then .isTrue (by rw [h])
    else .isFalse (by intro hc; injection hc with h2; exact h h2)
  | .ok _, .error _ => .isFalse (by intro hc; exact Except.noConfusion hc)
  | .error _, .ok _ => .isFalse (by intro hc; exact Except.noConfusion hc)

/-! ### Claim C10 - API-key uniqueness on account creation -/

/-- C10: account creation preserves API-key uniqueness. When the API key of
the input already belongs to a stored account, `CreateAccount` returns
`ErrAccountDuplicateKey` and never reaches `Save`: the store comes back
unchanged, so no second account with the same API key is persisted through
this operation. -/
theorem createAccount_duplicate_key (st : GatewayState) (acc existing : Account)
    (h : findAccountByAPIKey st acc.apiKey = some existing) :
    createAccount st acc = (st, some DomainErr.accountDuplicateKey) := by
  unfold createAccount
  rw [h]

theorem createAccount_duplicate_key_witness :
    createAccount ⟨[⟨"acc-1", "key-1", 0⟩], []⟩ ⟨"acc-2", "key-1", 5⟩ =
      (⟨[⟨"acc-1", "key-1", 0⟩], []⟩, some DomainErr.accountDuplicateKey) :=
  createAccount_duplicate_key ⟨[⟨"acc-1", "key-1", 0⟩], []⟩ ⟨"acc-2", "key-1", 5⟩
    ⟨"acc-1", "key-1", 0⟩ (by decide)

/-! ### Claim C5 - the invoice state machine only moves forward -/

/-- The state-machine policy of claim C5, stated for one
(current status, requested status) pair: from `pending` exactly `approved`
and `rejected` are reachable; the terminal refinements are reachable only
from `approved` or `settled`; no transition targets `pending`; and an
illegal transition attempted from any terminal (non-`pending`) status is
rejected with the `TransactionAlready*`-class error of the current status,
yielding no new status (so the stored status is unchanged). -/
def statusMachinePolicy (cur s : Status) : Prop :=
  (cur = StatusPending →
    (isOkStatus (updateStatus cur s) = true ↔ (s = StatusApproved ∨ s = StatusRejected))) ∧
  (s ∈ refinementStatuses → isOkStatus (updateStatus cur s) = true →
    (cur = StatusApproved ∨ cur = StatusSettled)) ∧
  (s = StatusPending → isOkStatus (updateStatus cur s) = false) ∧
  (cur ≠ StatusPending → isOkStatus (updateStatus cur s) = false →
    updateStatus cur s = .error (alreadyError cur) ∧ isAlreadyClass (alreadyError cur) = true)

/-- C5: over the whole closed status enumeration, `UpdateStatus` permits
only the forward moves of the state machine and rejects every illegal
transition with a `TransactionAlready*`-class error, leaving the status
unchanged. -/
theorem invoice_state_machine_policy :
    ∀ cur ∈ statusValues, ∀ s ∈ statusValues, statusMachinePolicy cur s := by
  simp only [statusMachinePolicy]
  decide

theorem invoice_state_machine_policy_witness :
    statusMachinePolicy StatusApproved StatusPending :=
  invoice_state_machine_policy StatusApproved (by decide) StatusPending (by decide)

/-! ### Claim C8 - the wire-status conversion does not validate -/

/-- C8 counterexample: `ToDomainStatus` applied to a result whose status
string lies outside the closed enumeration does not reject it - the raw
string is passed through as a domain status, refuting the claim that the
conversion validates against the closed set and fails on unknown values. -/
theorem toDomainStatus_no_validation_cex :
    toDomainStatus ⟨"inv-X", "fraud_suspect"⟩ = "fraud_suspect" ∧
    "fraud_suspect" ∉ statusValues :=
  ⟨rfl, by decide⟩

/-- C8 amended: `ToDomainStatus` is an unchecked cast - every status string,
known or unknown, is passed through unchanged - whereas the validated
conversion the spec recommends rejects exactly the strings outside the
closed enumeration. -/
theorem toDomainStatus_unchecked_cast (t : TransactionResult) :
    toDomainStatus t = t.status ∧
    (t.status ∉ statusValues → validatedToDomainStatus t = none) := by
  refine ⟨rfl, fun h => ?_⟩
  unfold validatedToDomainStatus
  rw [if_neg h]

theorem toDomainStatus_unchecked_cast_witness :
    toDomainStatus ⟨"inv-Y", "bogus"⟩ = "bogus" ∧
    validatedToDomainStatus ⟨"inv-Y", "bogus"⟩ = none :=
  ⟨(toDomainStatus_unchecked_cast ⟨"inv-Y", "bogus"⟩).1,
   (toDomainStatus_unchecked_cast ⟨"inv-Y", "bogus"⟩).2 (by decide)⟩

/-! ### Claim C9 - the consumer loop does not stop on cancellation -/

/-- C9 counterexample: at a concrete state, a failed read - which is exactly
what a cancelled context produces from `reader.ReadMessage` - makes the
`Consume` loop body log and continue rather than exit. `Consume` therefore
does not return on cancellation and never reaches `Close` itself, refuting
the claim that the loop exits when the cancellation context is cancelled. -/
theorem consume_cancellation_cex :
    consumeBody ⟨[], []⟩ ReadResult.failure = (⟨[], []⟩, LoopControl.continueLoop) := rfl

/-- C9 amended: the `Consume` loop body has no exit path at all - every read
outcome, a read error (including context cancellation), a malformed
payload, or a processed message, ends in `continue`; the loop runs forever
and the channel resource is released only by the deferred `Close` in
`main`, not by the loop. -/
theorem consumeBody_never_exits (st : GatewayState) (r : ReadResult) :
    (consumeBody st r).2 = LoopControl.continueLoop := by
  cases r with
  | failure => rfl
  | message m => cases m <;> rfl

/-! ### Claim C6 - per-message errors are not fatal to the consumer -/

theorem consume_eq_foldl : ∀ (rs : List ReadResult) (st : GatewayState),
    consume st rs = rs.foldl consumeStep st := by
  intro rs
  induction rs with
  | nil => intro st; rfl
  | cons r rs ih =>
    intro st
    cases r with
    | failure => exact ih st
    | message m => exact ih (handleMessage st m)

theorem consume_append : ∀ (rs : List ReadResult) (st : GatewayState) (rs' : List ReadResult),
    consume st (rs ++ rs') = consume (consume st rs) rs' := by
  intro rs
  induction rs with
  | nil => intro st rs'; rfl
  | cons r rs ih =>
    intro st rs'
    cases r with
    | failure => exact ih st rs'
    | message m => exact ih (handleMessage st m) rs'

/-- C6: no per-message error is fatal to the consumer loop. A read error or
a malformed payload is logged and dropped with the state untouched and the
rest of the trace still consumed; after any prefix - whatever errors it
held - the loop goes on to consume the rest; and the whole loop is the
total fold of the per-message step over the trace, so every message is
handled and none terminates or crashes the loop. -/
theorem consume_errors_nonfatal :
    (∀ (st : GatewayState) (rs : List ReadResult),
        consume st (ReadResult.failure :: rs) = consume st rs) ∧
    (∀ (st : GatewayState) (rs : List ReadResult),
        consume st (ReadResult.message RawMessage.malformed :: rs) = consume st rs) ∧
    (∀ (st : GatewayState) (rs rs' : List ReadResult),
        consume st (rs ++ rs') = consume (consume st rs) rs') ∧
    (∀ (st : GatewayState) (rs : List ReadResult),
        consume st rs = rs.foldl consumeStep st) :=
  ⟨fun _ _ => rfl, fun _ _ => rfl,
   fun st rs rs' => consume_append rs st rs',
   fun st rs => consume_eq_foldl rs st⟩

/-! ### Claim C1 - small amounts settle synchronously -/

/-- C1: for `Submit(accountId, amount)` with `0 < amount ≤ 10,000` against
an existing account, settlement is synchronous: the returned invoice is
`approved`, it is persisted as `approved`, nothing is published for review,
and the ledger balance of the account increases by exactly `amount`. The
invoice approval and the balance mutation are one failure domain: the
reduced `submit` produces both writes in a single outcome, never one
without the other. -/
theorem submit_small_settles_synchronously (st : GatewayState) (aid iid : String)
    (amount : ℚ) (acc : Account)
    (hacc : findAccountById st aid = some acc)
    (hpos : 0 < amount) (hle : amount ≤ threshold)
    (hfresh : findInvoiceById st iid = none) :
    (submit st aid iid amount).result = .ok ⟨iid, aid, amount, StatusApproved⟩ ∧
    (submit st aid iid amount).published = [] ∧
    findInvoiceById (submit st aid iid amount).state iid =
      some ⟨iid, aid, amount, StatusApproved⟩ ∧
    findAccountById (submit st aid iid amount).state aid = some (acc.addBalance amount) ∧
    (acc.addBalance amount).balance = acc.balance + amount := by
  have hsub : submit st aid iid amount =
      ⟨storeAccount (saveInvoice st ⟨iid, aid, amount, StatusApproved⟩) (acc.addBalance amount),
       [], .ok ⟨iid, aid, amount, StatusApproved⟩⟩ := by
    unfold submit
    rw [hacc]
    dsimp only
    rw [if_neg (not_le.mpr hpos), if_pos hle]
  rw [hsub]
  refine ⟨rfl, rfl, ?_, ?_, rfl⟩
  · exact find_append_fresh _ _ _ hfresh (beq_iff_eq.mpr rfl)
  · exact find_replaceByKey Account.id st.accounts aid acc (acc.addBalance amount) hacc rfl

theorem submit_small_witness :
    (submit ⟨[⟨"acc-1", "key-1", 0⟩], []⟩ "acc-1" "inv-1" 500).result =
      .ok ⟨"inv-1", "acc-1", 500, StatusApproved⟩ ∧
    (submit ⟨[⟨"acc-1", "key-1", 0⟩], []⟩ "acc-1" "inv-1" 500).published = [] ∧
    findInvoiceById (submit ⟨[⟨"acc-1", "key-1", 0⟩], []⟩ "acc-1" "inv-1" 500).state "inv-1" =
      some ⟨"inv-1", "acc-1", 500, StatusApproved⟩ ∧
    findAccountById (submit ⟨[⟨"acc-1", "key-1", 0⟩], []⟩ "acc-1" "inv-1" 500).state "acc-1" =
      some (Account.addBalance ⟨"acc-1", "key-1", 0⟩ 500) ∧
    (Account.addBalance ⟨"acc-1", "key-1", 0⟩ 500).balance = (0 : ℚ) + 500 :=
  submit_small_settles_synchronously ⟨[⟨"acc-1", "key-1", 0⟩], []⟩ "acc-1" "inv-1" 500
    ⟨"acc-1", "key-1", 0⟩ (by decide) (by decide) (by decide) rfl

/-! ### Claim C2 - large amounts go pending and are published -/

/-- C2: for `Submit(accountId, amount)` with `amount > 10,000` against an
existing account, the returned invoice is `pending` and persisted as
`pending`, the account store (hence every ledger balance) is untouched, and
exactly one `PendingTransaction` event {accountId, invoiceId, amount}
carrying the same amount is published to the pending-transactions
channel. -/
theorem submit_large_goes_pending (st : GatewayState) (aid iid : String)
    (amount : ℚ) (acc : Account)
    (hacc : findAccountById st aid = some acc)
    (hgt : threshold < amount)
    (hfresh : findInvoiceById st iid = none) :
    (submit st aid iid amount).result = .ok ⟨iid, aid, amount, StatusPending⟩ ∧
    (submit st aid iid amount).published = [⟨aid, iid, amount⟩] ∧
    (submit st aid iid amount).state.accounts = st.accounts ∧
    findInvoiceById (submit st aid iid amount).state iid =
      some ⟨iid, aid, amount, StatusPending⟩ := by
  have hpos : 0 < amount := lt_trans (by norm_num [threshold]) hgt
  have hsub : submit st aid iid amount =
      ⟨saveInvoice st ⟨iid, aid, amount, StatusPending⟩,
       [PendingTransaction.mk aid iid amount], .ok ⟨iid, aid, amount, StatusPending⟩⟩ := by
    unfold submit
    rw [hacc]
    dsimp only
    rw [if_neg (not_le.mpr hpos), if_neg (not_le.mpr hgt)]
  rw [hsub]
  refine ⟨rfl, rfl, rfl, ?_⟩
  exact find_append_fresh _ _ _ hfresh (beq_iff_eq.mpr rfl)

theorem submit_large_witness :
    (submit ⟨[⟨"acc-1", "key-1", 0⟩], []⟩ "acc-1" "inv-2" 15000).result =
      .ok ⟨"inv-2", "acc-1", 15000, StatusPending⟩ ∧
    (submit ⟨[⟨"acc-1", "key-1", 0⟩], []⟩ "acc-1" "inv-2" 15000).published =
      [⟨"acc-1", "inv-2", 15000⟩] ∧
    (submit ⟨[⟨"acc-1", "key-1", 0⟩], []⟩ "acc-1" "inv-2" 15000).state.accounts =
      [⟨"acc-1", "key-1", 0⟩] ∧
    findInvoiceById (submit ⟨[⟨"acc-1", "key-1", 0⟩], []⟩ "acc-1" "inv-2" 15000).state "inv-2" =
      some ⟨"inv-2", "acc-1", 15000, StatusPending⟩ :=
  submit_large_goes_pending ⟨[⟨"acc-1", "key-1", 0⟩], []⟩ "acc-1" "inv-2" 15000
    ⟨"acc-1", "key-1", 0⟩ (by decide) (by norm_num [threshold]) rfl

/-! ### Claim C4 - an approved result settles a pending invoice -/

/-- C4: when the consumer processes a result with status `approved` for a
`pending` invoice of amount A, `ProcessTransactionResult` succeeds: the
persisted invoice status becomes `approved`, the owning account is looked
up by the invoice account id, and its balance increases by exactly A. The
hypotheses say the invoice exists and is `pending`, the owning account is
found under the invoice account id, and the API-key lookup the balance
update performs returns that same account. -/
theorem consumer_approved_result_settles (st : GatewayState) (X : String)
    (inv : Invoice) (acc : Account)
    (hinv : findInvoiceById st X = some inv)
    (hpending : inv.status = StatusPending)
    (hacc : findAccountById st inv.accountId = some acc)
    (hkey : findAccountByAPIKey st acc.apiKey = some acc) :
    (processTransactionResult st X StatusApproved).2 = none ∧
    findInvoiceById (processTransactionResult st X StatusApproved).1 X =
      some { inv with status := StatusApproved } ∧
    findAccountById (processTransactionResult st X StatusApproved).1 inv.accountId =
      some (acc.addBalance inv.amount) ∧
    (acc.addBalance inv.amount).balance = acc.balance + inv.amount := by
  have hu : updateStatus inv.status StatusApproved = .ok StatusApproved := by
    rw [hpending]
    unfold updateStatus
    rw [if_pos (by decide)]
  have ha1 : accountFindById (setInvoice st { inv with status := StatusApproved })
      inv.accountId = .ok acc := by
    unfold accountFindById
    have h2 : findAccountById (setInvoice st { inv with status := StatusApproved })
        inv.accountId = some acc := hacc
    rw [h2]
  have hb1 : updateBalance (setInvoice st { inv with status := StatusApproved })
      acc.apiKey inv.amount =
      .ok (storeAccount (setInvoice st { inv with status := StatusApproved })
        (acc.addBalance inv.amount)) := by
    unfold updateBalance
    have h2 : findAccountByAPIKey (setInvoice st { inv with status := StatusApproved })
        acc.apiKey = some acc := hkey
    rw [h2]
  have hmain : processTransactionResult st X StatusApproved =
      (storeAccount (setInvoice st { inv with status := StatusApproved })
        (acc.addBalance inv.amount), none) := by
    unfold processTransactionResult
    rw [hinv]
    dsimp only
    rw [hu]
    dsimp only
    rw [if_pos rfl, ha1]
    dsimp only
    rw [hb1]
  rw [hmain]
  refine ⟨rfl, ?_, ?_, rfl⟩
  · exact find_replaceByKey Invoice.id st.invoices X inv { inv with status := StatusApproved }
      hinv rfl
  · exact find_replaceByKey Account.id st.accounts inv.accountId acc
      (acc.addBalance inv.amount) hacc rfl

theorem consumer_approved_result_settles_witness :
    (processTransactionResult ⟨[⟨"acc-1", "key-1", 0⟩], [⟨"inv-9", "acc-1", 15000, StatusPending⟩]⟩
        "inv-9" StatusApproved).2 = none ∧
    findInvoiceById (processTransactionResult
        ⟨[⟨"acc-1", "key-1", 0⟩], [⟨"inv-9", "acc-1", 15000, StatusPending⟩]⟩
        "inv-9" StatusApproved).1 "inv-9" =
      some ⟨"inv-9", "acc-1", 15000, StatusApproved⟩ ∧
    findAccountById (processTransactionResult
        ⟨[⟨"acc-1", "key-1", 0⟩], [⟨"inv-9", "acc-1", 15000, StatusPending⟩]⟩
        "inv-9" StatusApproved).1 "acc-1" =
      some (Account.addBalance ⟨"acc-1", "key-1", 0⟩ 15000) ∧
    (Account.addBalance ⟨"acc-1", "key-1", 0⟩ 15000).balance = (0 : ℚ) + 15000 :=
  consumer_approved_result_settles
    ⟨[⟨"acc-1", "key-1", 0⟩], [⟨"inv-9", "acc-1", 15000, StatusPending⟩]⟩
    "inv-9" ⟨"inv-9", "acc-1", 15000, StatusPending⟩ ⟨"acc-1", "key-1", 0⟩
    (by decide) rfl (by decide) (by decide)

/-! ### Claim C7 - no compensation after a partial approved settlement -/

/-- C7: when an approved result passes the status transition and the new
status is persisted, but the next step fails - the owning-account lookup
finds no account, or the balance update finds no account under the API key
- no compensating action is taken: the call reports the error (which the
consumer merely logs), the invoice stays persisted in its new `approved`
status, and the account store (the ledger) is exactly as before. The final
conjunct shows the consumer loop then simply moves on with the partially
updated state: the message is dropped, not retried. -/
theorem approved_partial_failure_no_compensation (st : GatewayState) (X : String)
    (inv : Invoice)
    (hinv : findInvoiceById st X = some inv)
    (hpending : inv.status = StatusPending)
    (hfail : findAccountById st inv.accountId = none ∨
      (∃ acc, findAccountById st inv.accountId = some acc ∧
        findAccountByAPIKey st acc.apiKey = none)) :
    (processTransactionResult st X StatusApproved).2 = some DomainErr.accountNotFound ∧
    findInvoiceById (processTransactionResult st X StatusApproved).1 X =
      some { inv with status := StatusApproved } ∧
    (processTransactionResult st X StatusApproved).1.accounts = st.accounts ∧
    (∀ rs : List ReadResult,
      consume st (ReadResult.message (RawMessage.event ⟨X, StatusApproved⟩) :: rs) =
        consume (processTransactionResult st X StatusApproved).1 rs) := by
  have hu : updateStatus inv.status StatusApproved = .ok StatusApproved := by
    rw [hpending]
    unfold updateStatus
    rw [if_pos (by decide)]
  have hmain : processTransactionResult st X StatusApproved =
      (setInvoice st { inv with status := StatusApproved },
        some DomainErr.accountNotFound) := by
    rcases hfail with hno | ⟨acc, hacc, hnokey⟩
    · have ha1 : accountFindById (setInvoice st { inv with status := StatusApproved })
          inv.accountId = .error .accountNotFound := by
        unfold accountFindById
        have h2 : findAccountById (setInvoice st { inv with status := StatusApproved })
            inv.accountId = none := hno
        rw [h2]
      unfold processTransactionResult
      rw [hinv]
      dsimp only
      rw [hu]
      dsimp only
      rw [if_pos rfl, ha1]
    · have ha1 : accountFindById (setInvoice st { inv with status := StatusApproved })
          inv.accountId = .ok acc := by
        unfold accountFindById
        have h2 : findAccountById (setInvoice st { inv with status := StatusApproved })
            inv.accountId = some acc := hacc
        rw [h2]
      have hb1 : updateBalance (setInvoice st { inv with status := StatusApproved })
          acc.apiKey inv.amount = .error .accountNotFound := by
        unfold updateBalance
        have h2 : findAccountByAPIKey (setInvoice st { inv with status := StatusApproved })
            acc.apiKey = none := hnokey
        rw [h2]
      unfold processTransactionResult
      rw [hinv]
      dsimp only
      rw [hu]
      dsimp only
      rw [if_pos rfl, ha1]
      dsimp only
      rw [hb1]
  refine ⟨?_, ?_, ?_, fun rs => rfl⟩
  · rw [hmain]
  · rw [hmain]
    exact find_replaceByKey Invoice.id st.invoices X inv { inv with status := StatusApproved }
      hinv rfl
  · rw [hmain]
    exact setInvoice_accounts st { inv with status := StatusApproved }

theorem approved_partial_failure_witness :
    (processTransactionResult ⟨[], [⟨"inv-9", "acc-1", 15000, StatusPending⟩]⟩
        "inv-9" StatusApproved).2 = some DomainErr.accountNotFound ∧
    findInvoiceById (processTransactionResult
        ⟨[], [⟨"inv-9", "acc-1", 15000, StatusPending⟩]⟩ "inv-9" StatusApproved).1 "inv-9" =
      some ⟨"inv-9", "acc-1", 15000, StatusApproved⟩ ∧
    (processTransactionResult ⟨[], [⟨"inv-9", "acc-1", 15000, StatusPending⟩]⟩
        "inv-9" StatusApproved).1.accounts = [] ∧
    (∀ rs : List ReadResult,
      consume ⟨[], [⟨"inv-9", "acc-1", 15000, StatusPending⟩]⟩
          (ReadResult.message (RawMessage.event ⟨"inv-9", StatusApproved⟩) :: rs) =
        consume (processTransactionResult ⟨[], [⟨"inv-9", "acc-1", 15000, StatusPending⟩]⟩
          "inv-9" StatusApproved).1 rs) :=
  approved_partial_failure_no_compensation
    ⟨[], [⟨"inv-9", "acc-1", 15000, StatusPending⟩]⟩ "inv-9"
    ⟨"inv-9", "acc-1", 15000, StatusPending⟩ (by decide) rfl (Or.inl (by decide))

/-! ### Claim C3 - processing the same result twice is idempotent -/

/-- C3: processing the same `TransactionResult` event twice for the same
invoice mutates the ledger at most once. After a first application whose
status transition was legal, the second application of the very same event
is rejected by the state-machine legality check with a
`TransactionAlready*`-class error before any balance update: the returned
state is exactly the state after the first application, so there is no
second balance increase and no crash. -/
theorem process_result_idempotent (st : GatewayState) (X : String) (s : Status)
    (inv : Invoice)
    (hinv : findInvoiceById st X = some inv)
    (hlegal : legalTransition inv.status s = true) :
    processTransactionResult (processTransactionResult st X s).1 X s =
      ((processTransactionResult st X s).1, some (alreadyError s)) ∧
    isAlreadyClass (alreadyError s) = true := by
  have hu : updateStatus inv.status s = .ok s := by
    unfold updateStatus
    rw [if_pos hlegal]
  have hinvs : (processTransactionResult st X s).1.invoices =
      (setInvoice st { inv with status := s }).invoices := by
    unfold processTransactionResult
    rw [hinv]
    dsimp only
    rw [hu]
    dsimp only
    by_cases hs : s = StatusApproved
    · rw [if_pos hs]
      cases h2 : accountFindById (setInvoice st { inv with status := s}) inv.accountId with
      | error e => rfl
      | ok account =>
        dsimp only
        cases h3 : updateBalance (setInvoice st { inv with status := s })
            account.apiKey inv.amount with
        | error e => rfl
        | ok st2 => exact updateBalance_ok_invoices _ _ _ _ h3
    · rw [if_neg hs]
  have hfind1 : findInvoiceById (processTransactionResult st X s).1 X =
      some { inv with status := s } := by
    show ((processTransactionResult st X s).1.invoices).find? (fun j => j.id == X) =
      some { inv with status := s }
    rw [hinvs]
    exact find_replaceByKey Invoice.id st.invoices X inv { inv with status := s } hinv rfl
  have hu2 : updateStatus s s = .error (alreadyError s) := by
    unfold updateStatus
    rw [if_neg (by simp [legalTransition_self])]
  constructor
  · generalize hst1 : (processTransactionResult st X s).1 = st1 at hfind1 ⊢
    unfold processTransactionResult
    rw [hfind1]
    dsimp only
    rw [hu2]
  · exact legal_target_already inv.status s hlegal

theorem process_result_idempotent_witness :
    processTransactionResult
        (processTransactionResult
          ⟨[⟨"acc-1", "key-1", 0⟩], [⟨"inv-9", "acc-1", 15000, StatusPending⟩]⟩
          "inv-9" StatusApproved).1 "inv-9" StatusApproved =
      ((processTransactionResult
          ⟨[⟨"acc-1", "key-1", 0⟩], [⟨"inv-9", "acc-1", 15000, StatusPending⟩]⟩
          "inv-9" StatusApproved).1, some (alreadyError StatusApproved)) ∧
    isAlreadyClass (alreadyError StatusApproved) = true :=
  process_result_idempotent
    ⟨[⟨"acc-1", "key-1", 0⟩], [⟨"inv-9", "acc-1", 15000, StatusPending⟩]⟩
    "inv-9" StatusApproved ⟨"inv-9", "acc-1", 15000, StatusPending⟩
    (by decide) (by decide)

end GoGateway
